import Mathlib

/-!
Shallow embedding of the my-todo repository layer (src/src/repositories/todo.rs,
src/src/repositories/label.rs, src/src/handlers.rs).

The in-memory repository wraps a `HashMap<i32, Todo>`; we model it as an
association list with unique-key semantics: lookup returns the first entry
with a matching key, insert replaces the first matching entry (or appends
when the key is absent), remove drops the first matching entry.  Ids are
`i32` in the source; they are modelled as `Int`, and the truncating
`(store.len() + 1) as i32` cast in `create` is modelled explicitly by
`toI32` (two's-complement wrap at 2^31).

The database-backed operations are one parameterized SQL statement each;
the `todos` / `labels` tables are modelled as a list of rows plus the serial
sequence counter that assigns the next primary key.
-/

set_option autoImplicit false

namespace MyTodo

/-- Todo record: `struct Todo { id: i32, text: String, completed: bool }`. -/
structure Todo where
  id : Int
  text : String
  completed : Bool
deriving DecidableEq, Repr

/-- Creation payload: `struct CreateTodo { text: String }`. -/
structure CreateTodo where
  text : String
deriving DecidableEq, Repr

/-- Partial-update payload:
`struct UpdateTodo { text: Option<String>, completed: Option<bool> }`. -/
structure UpdateTodo where
  text : Option String
  completed : Option Bool
deriving DecidableEq, Repr

/-- Repository-level error taxonomy (`RepositoryError` in the source). -/
inductive RepositoryError where
  | NotFound (id : Int)
  | Duplicate (id : Int)
  | Unexpected (msg : String)
deriving DecidableEq, Repr

/-- The in-memory backing store: `type TodoData = HashMap<i32, Todo>`. -/
abbrev TodoData := List (Int × Todo)

/-- `HashMap::get(&id)`: the value of the first entry whose key is `id`. -/
def storeGet (s : TodoData) (id : Int) : Option Todo :=
  match s with
  | [] => none
  | p :: rest => if p.1 == id then some p.2 else storeGet rest id

/-- `HashMap::insert(id, t)`: replace the first entry keyed `id`, or append. -/
def storeInsert (s : TodoData) (id : Int) (t : Todo) : TodoData :=
  match s with
  | [] => [(id, t)]
  | p :: rest => if p.1 == id then (id, t) :: rest else p :: storeInsert rest id t

/-- `HashMap::remove(&id)`: drop the first entry keyed `id`. -/
def storeRemove (s : TodoData) (id : Int) : TodoData :=
  match s with
  | [] => []
  | p :: rest => if p.1 == id then rest else p :: storeRemove rest id

/-- The Rust `as i32` cast on an unsigned value: truncate to the low 32
bits and read them as two's complement (2147483648 = 2^31, 4294967296 =
2^32). -/
def toI32 (n : Nat) : Int :=
  ((n : Int) + 2147483648) % 4294967296 - 2147483648

namespace TodoRepositoryForMemory

/-- `create`: `id = (store.len() + 1) as i32` (a truncating cast, modelled
by `toI32`), build `Todo::new(id, text)` (`completed` defaults to `false`),
insert it, return it. -/
def create (s : TodoData) (payload : CreateTodo) : Todo × TodoData :=
  let id : Int := toI32 (s.length + 1)
  let todo : Todo := { id := id, text := payload.text, completed := false }
  (todo, storeInsert s id todo)

/-- `find`: `store.get(&id).ok_or(RepositoryError::NotFound(id))`. -/
def find (s : TodoData) (id : Int) : Except RepositoryError Todo :=
  match storeGet s id with
  | some todo => .ok todo
  | none => .error (.NotFound id)

/-- `all`: snapshot of all stored values. -/
def all (s : TodoData) : List Todo :=
  s.map (fun p => p.2)

/-- `update`: NotFound when absent; otherwise each `Some` payload field
overwrites, each `None` field keeps the stored value; the merged record is
re-inserted under `id` and returned.  The store is threaded through so the
error case visibly leaves it untouched. -/
def update (s : TodoData) (id : Int) (payload : UpdateTodo) :
    Except RepositoryError Todo × TodoData :=
  match storeGet s id with
  | none => (.error (.NotFound id), s)
  | some todo =>
    let text := payload.text.getD todo.text
    let completed := payload.completed.getD todo.completed
    let merged : Todo := { id := id, text := text, completed := completed }
    (.ok merged, storeInsert s id merged)

/-- `delete`: `store.remove(&id).ok_or(RepositoryError::NotFound(id))`. -/
def delete (s : TodoData) (id : Int) : Except RepositoryError Unit × TodoData :=
  match storeGet s id with
  | none => (.error (.NotFound id), s)
  | some _ => (.ok (), storeRemove s id)

end TodoRepositoryForMemory

/-- Iterated `create` (used to state the "N creates, no deletes" scenario). -/
def createMany (s : TodoData) (ps : List CreateTodo) : TodoData :=
  ps.foldl (fun acc p => (TodoRepositoryForMemory.create acc p).2) s

/-- The validation rules the `Validate` derive puts on `CreateTodo.text`:
length min 1 ("Can not be empty"), length max 100 ("Over text length").
The `validator` crate measures `String` length in characters. -/
def CreateTodo.validate (p : CreateTodo) : List String :=
  (if p.text.length < 1 then ["Can not be empty"] else []) ++
  (if 100 < p.text.length then ["Over text length"] else [])

/-- The same rules on `UpdateTodo.text : Option<String>`; the `validator`
crate skips length checks when the option is `None`. -/
def UpdateTodo.validate (p : UpdateTodo) : List String :=
  match p.text with
  | none => []
  | some t =>
    (if t.length < 1 then ["Can not be empty"] else []) ++
    (if 100 < t.length then ["Over text length"] else [])

/-- `ValidatedJson::from_request` after a successful JSON parse: run the
payload's validation rules; any violation is rejected with
`(StatusCode::BAD_REQUEST, "Validation error: [..]")` joined with ", ". -/
def validatedJsonCreate (body : CreateTodo) : Except (Nat × String) CreateTodo :=
  if body.validate.isEmpty then .ok body
  else .error (400, "Validation error: [" ++ String.intercalate ", " body.validate ++ "]")

/-- `ValidatedJson::from_request` for `UpdateTodo` bodies. -/
def validatedJsonUpdate (body : UpdateTodo) : Except (Nat × String) UpdateTodo :=
  if body.validate.isEmpty then .ok body
  else .error (400, "Validation error: [" ++ String.intercalate ", " body.validate ++ "]")

/-- `create_todo` route (`POST /todos`) against the in-memory repository:
the `ValidatedJson` extractor runs first; on rejection the handler body
never runs and the store is untouched, otherwise `create` runs and the
response is 201 with the created record. -/
def create_todo (s : TodoData) (body : CreateTodo) : (Nat × Option Todo) × TodoData :=
  match validatedJsonCreate body with
  | .error (status, _) => ((status, none), s)
  | .ok payload =>
    let (todo, s2) := TodoRepositoryForMemory.create s payload
    ((201, some todo), s2)

/-- `update_todo` route (`PATCH /todos/{id}`): `ValidatedJson` first (400 on
rejection, store untouched), then `update` (404 on repository error, 200
with the updated record on success). -/
def update_todo (s : TodoData) (id : Int) (body : UpdateTodo) :
    (Nat × Option Todo) × TodoData :=
  match validatedJsonUpdate body with
  | .error (status, _) => ((status, none), s)
  | .ok payload =>
    match TodoRepositoryForMemory.update s id payload with
    | (.ok todo, s2) => ((200, some todo), s2)
    | (.error _, s2) => ((404, none), s2)

/-- The `todos` table: rows plus the serial sequence assigning the next id. -/
structure TodosTable where
  rows : List Todo
  nextId : Int
deriving DecidableEq, Repr

namespace TodoRepositoryForDb

/-- `insert into todos (text, completed) values ($1, false) returning *`. -/
def create (db : TodosTable) (payload : CreateTodo) : Todo × TodosTable :=
  let todo : Todo := { id := db.nextId, text := payload.text, completed := false }
  (todo, { rows := db.rows ++ [todo], nextId := db.nextId + 1 })

/-- First row of the `todos` table whose primary key is `id`. -/
def rowsFind (rows : List Todo) (id : Int) : Option Todo :=
  match rows with
  | [] => none
  | r :: rest => if r.id == id then some r else rowsFind rest id

/-- `select * from todos where id=$1` via `fetch_one`; `RowNotFound` is
mapped to `RepositoryError::NotFound(id)`. -/
def find (db : TodosTable) (id : Int) : Except RepositoryError Todo :=
  match rowsFind db.rows id with
  | some todo => .ok todo
  | none => .error (.NotFound id)

/-- `select * from todos`. -/
def all (db : TodosTable) : List Todo :=
  db.rows

/-- `update`: first `find(id)` (so NotFound when absent), then
`update todos set text=$1, completed=$2 where id=$3 returning *` with each
`Some` payload field, falling back to the old row's value for `None`. -/
def update (db : TodosTable) (id : Int) (payload : UpdateTodo) :
    Except RepositoryError Todo × TodosTable :=
  match find db id with
  | .error e => (.error e, db)
  | .ok old =>
    let merged : Todo :=
      { id := id, text := payload.text.getD old.text,
        completed := payload.completed.getD old.completed }
    (.ok merged,
     { rows := db.rows.map (fun t => if t.id == id then merged else t),
       nextId := db.nextId })

/-- `delete from todos where id=$1` via `execute()`.  sqlx's `execute`
reports only database failures; a DELETE matching zero rows succeeds with
`rows_affected = 0` and `RowNotFound` arises only from `fetch_one`, so the
`RowNotFound => NotFound` arm in the source is unreachable and deleting an
absent id returns `Ok(())`. -/
def delete (db : TodosTable) (id : Int) : Except RepositoryError Unit × TodosTable :=
  (.ok (), { rows := db.rows.filter (fun t => !(t.id == id)), nextId := db.nextId })

end TodoRepositoryForDb

/-- Label record: `struct Label { id: i32, name: String }`. -/
structure Label where
  id : Int
  name : String
deriving DecidableEq, Repr

/-- The `labels` table: rows plus the serial sequence for the next id. -/
structure LabelsTable where
  rows : List Label
  nextId : Int
deriving DecidableEq, Repr

namespace LabelRepositoryForDb

/-- First row of the `labels` table whose `name` column equals `name`. -/
def labelsFind (rows : List Label) (name : String) : Option Label :=
  match rows with
  | [] => none
  | l :: rest => if l.name == name then some l else labelsFind rest name

/-- `create`: `select * from labels where name = $1` via `fetch_optional`;
when a row exists, fail with `Duplicate(existing.id)` and insert nothing;
otherwise `insert into labels (name) values ($1) returning *`. -/
def create (db : LabelsTable) (name : String) : Except RepositoryError Label × LabelsTable :=
  match labelsFind db.rows name with
  | some label => (.error (.Duplicate label.id), db)
  | none =>
    let label : Label := { id := db.nextId, name := name }
    (.ok label, { rows := db.rows ++ [label], nextId := db.nextId + 1 })

end LabelRepositoryForDb

/-- The record both `update` variants build: each `Some` payload field
overwrites, each `None` field keeps the old record's value, and the id is
the requested one. -/
def mergedTodo (id : Int) (old : Todo) (p : UpdateTodo) : Todo :=
  { id := id, text := p.text.getD old.text, completed := p.completed.getD old.completed }

/-- A concrete operation sequence exhibiting id reuse: create "a" (id 1),
create "b" (id 2), delete id 1 — the store now holds one record, keyed 2,
so the next create computes id = 2 again. -/
def reuseState : TodoData :=
  (TodoRepositoryForMemory.delete
    (TodoRepositoryForMemory.create
      (TodoRepositoryForMemory.create ([] : TodoData) { text := "a" }).2
      { text := "b" }).2 1).2

/-- The key/id-field agreement invariant of the in-memory store: every
record stored under key `k` carries `id = k`. -/
def idInv (s : TodoData) : Prop :=
  ∀ p ∈ s, (p.2).id = p.1

instance (s : TodoData) : Decidable (idInv s) :=
  inferInstanceAs (Decidable (∀ p ∈ s, (p.2).id = p.1))

/-- States of the in-memory store reachable from the fresh (empty)
repository through the repository operations. -/
inductive Reachable : TodoData → Prop where
  | empty : Reachable []
  | create (s : TodoData) (p : CreateTodo) :
      Reachable s → Reachable (TodoRepositoryForMemory.create s p).2
  | update (s : TodoData) (id : Int) (p : UpdateTodo) :
      Reachable s → Reachable (TodoRepositoryForMemory.update s id p).2
  | delete (s : TodoData) (id : Int) :
      Reachable s → Reachable (TodoRepositoryForMemory.delete s id).2

/-! ### Helper lemmas about the association-list store -/

theorem storeGet_insert_self (s : TodoData) (id : Int) (t : Todo) :
    storeGet (storeInsert s id t) id = some t := by
  induction s with
  | nil => simp [storeGet, storeInsert]
  | cons p rest ih =>
    by_cases h : p.1 == id
    · simp [storeGet, storeInsert, h]
    · simp [storeGet, storeInsert, h, ih]

theorem storeGet_mem (s : TodoData) (id : Int) (t : Todo)
    (h : storeGet s id = some t) : (id, t) ∈ s := by
  induction s with
  | nil => simp [storeGet] at h
  | cons p rest ih =>
    by_cases hp : p.1 == id
    · have hkey : p.1 = id := eq_of_beq hp
      have hval : p.2 = t := by simpa [storeGet, hp] using h
      have : p = (id, t) := by
        rw [← hkey, ← hval]
      rw [← this]
      exact List.mem_cons_self p rest
    · have h' : storeGet rest id = some t := by simpa [storeGet, hp] using h
      exact List.mem_cons_of_mem p (ih h')

theorem storeInsert_get_self (s : TodoData) (id : Int) (t : Todo)
    (h : storeGet s id = some t) : storeInsert s id t = s := by
  induction s with
  | nil => simp [storeGet] at h
  | cons p rest ih =>
    by_cases hp : p.1 == id
    · have hkey : p.1 = id := eq_of_beq hp
      have hval : p.2 = t := by simpa [storeGet, hp] using h
      simp [storeInsert, hp, ← hkey, ← hval]
    · have h' : storeGet rest id = some t := by simpa [storeGet, hp] using h
      simp [storeInsert, hp, ih h']

theorem idInv_get (s : TodoData) (id : Int) (t : Todo)
    (hinv : idInv s) (h : storeGet s id = some t) : t.id = id :=
  hinv (id, t) (storeGet_mem s id t h)

theorem idInv_insert (s : TodoData) (id : Int) (t : Todo)
    (hinv : idInv s) (ht : t.id = id) : idInv (storeInsert s id t) := by
  induction s with
  | nil =>
    intro p hp
    simp [storeInsert] at hp
    rw [hp]
    exact ht
  | cons q rest ih =>
    have hq := hinv q (List.mem_cons_self q rest)
    have hrest : idInv rest := fun p hp => hinv p (List.mem_cons_of_mem q hp)
    by_cases h : q.1 == id
    · intro p hp
      simp [storeInsert, h] at hp
      rcases hp with hp | hp
      · rw [hp]; exact ht
      · exact hrest p hp
    · intro p hp
      simp only [storeInsert, h, if_neg] at hp
      rcases List.mem_cons.mp (by simpa using hp) with hp' | hp'
      · rw [hp']; exact hq
      · exact ih hrest p hp'

theorem storeRemove_subset (s : TodoData) (id : Int) (p : Int × Todo)
    (hp : p ∈ storeRemove s id) : p ∈ s := by
  induction s with
  | nil => simp [storeRemove] at hp
  | cons q rest ih =>
    by_cases h : q.1 == id
    · simp only [storeRemove, h, if_pos] at hp
      exact List.mem_cons_of_mem q (by simpa using hp)
    · simp only [storeRemove, h, if_neg] at hp
      rcases List.mem_cons.mp (by simpa using hp) with hp' | hp'
      · rw [hp']; exact List.mem_cons_self q rest
      · exact List.mem_cons_of_mem q (ih hp')

theorem idInv_remove (s : TodoData) (id : Int)
    (hinv : idInv s) : idInv (storeRemove s id) :=
  fun p hp => hinv p (storeRemove_subset s id p hp)

theorem storeInsert_fresh (s : TodoData) (id : Int) (t : Todo)
    (h : ∀ p ∈ s, p.1 ≠ id) : storeInsert s id t = s ++ [(id, t)] := by
  induction s with
  | nil => simp [storeInsert]
  | cons q rest ih =>
    have hq : ¬(q.1 == id) := by
      simpa using h q (List.mem_cons_self q rest)
    have hrest : ∀ p ∈ rest, p.1 ≠ id := fun p hp => h p (List.mem_cons_of_mem q hp)
    simp [storeInsert, hq, ih hrest]

theorem toI32_small (n : Nat) (h : n ≤ 2147483647) : toI32 n = (n : Int) := by
  unfold toI32
  omega

theorem toI32_inj (a b : Nat) (ha1 : 1 ≤ a) (ha2 : a ≤ 4294967296)
    (hb1 : 1 ≤ b) (hb2 : b ≤ 4294967296) (h : toI32 a = toI32 b) : a = b := by
  unfold toI32 at h
  omega

theorem storeInsert_length_present (s : TodoData) (id : Int) (t : Todo)
    (h : ∃ p ∈ s, p.1 = id) : (storeInsert s id t).length = s.length := by
  induction s with
  | nil => simp at h
  | cons q rest ih =>
    by_cases hq : q.1 == id
    · simp [storeInsert, hq]
    · have h' : ∃ p ∈ rest, p.1 = id := by
        rcases h with ⟨p, hp, he⟩
        rcases List.mem_cons.mp hp with rfl | hp'
        · exact absurd (by simp [he]) hq
        · exact ⟨p, hp', he⟩
      simp [storeInsert, hq, ih h']

/-- The id scheme under the i32 wrap: growing an empty store by creates only,
as long as the total count stays at most 2^32, every assigned id `toI32 j`
(j the running create count) is fresh, so the store's length tracks the
number of creates, and every `toI32 j` with `j` up to that count is a key. -/
theorem createMany_wrapped_invariant (ps : List CreateTodo) (s : TodoData) (k : Nat)
    (hlen : s.length = k)
    (hsub : ∀ p ∈ s, ∃ j, 1 ≤ j ∧ j ≤ k ∧ p.1 = toI32 j)
    (hsup : ∀ j, 1 ≤ j → j ≤ k → ∃ p ∈ s, p.1 = toI32 j)
    (hbound : k + ps.length ≤ 4294967296) :
    (createMany s ps).length = k + ps.length ∧
    (∀ p ∈ createMany s ps, ∃ j, 1 ≤ j ∧ j ≤ k + ps.length ∧ p.1 = toI32 j) ∧
    (∀ j, 1 ≤ j → j ≤ k + ps.length → ∃ p ∈ createMany s ps, p.1 = toI32 j) := by
  induction ps generalizing s k with
  | nil =>
    simp only [createMany, List.foldl_nil, List.length_nil, Nat.add_zero]
    exact ⟨hlen, hsub, hsup⟩
  | cons q rest ih =>
    have hfresh : ∀ p ∈ s, p.1 ≠ toI32 (k + 1) := by
      intro p hp he
      rcases hsub p hp with ⟨j, hj1, hj2, hje⟩
      have hj : j = k + 1 := by
        refine toI32_inj j (k + 1) hj1 ?_ ?_ ?_ ?_
        · simp only [List.length_cons] at hbound
          omega
        · omega
        · simp only [List.length_cons] at hbound
          omega
        · rw [← hje, he]
      omega
    have h0 : (TodoRepositoryForMemory.create s q).2
        = storeInsert s (toI32 (s.length + 1)) (TodoRepositoryForMemory.create s q).1 := rfl
    have happ : (TodoRepositoryForMemory.create s q).2
        = s ++ [(toI32 (k + 1), (TodoRepositoryForMemory.create s q).1)] := by
      rw [h0, hlen]
      exact storeInsert_fresh s (toI32 (k + 1)) _ hfresh
    have hlen2 : ((TodoRepositoryForMemory.create s q).2).length = k + 1 := by
      rw [happ]
      simp [hlen]
    have hsub2 : ∀ p ∈ (TodoRepositoryForMemory.create s q).2,
        ∃ j, 1 ≤ j ∧ j ≤ k + 1 ∧ p.1 = toI32 j := by
      intro p hp
      rw [happ] at hp
      rcases List.mem_append.mp hp with hp' | hp'
      · rcases hsub p hp' with ⟨j, h1, h2, h3⟩
        exact ⟨j, h1, by omega, h3⟩
      · have hpe : p = (toI32 (k + 1), (TodoRepositoryForMemory.create s q).1) := by
          simpa using hp'
        exact ⟨k + 1, by omega, le_refl _, by rw [hpe]⟩
    have hsup2 : ∀ j, 1 ≤ j → j ≤ k + 1 → ∃ p ∈ (TodoRepositoryForMemory.create s q).2,
        p.1 = toI32 j := by
      intro j h1 h2
      rcases Nat.lt_or_ge j (k + 1) with hj | hj
      · rcases hsup j h1 (by omega) with ⟨p, hp, he⟩
        refine ⟨p, ?_, he⟩
        rw [happ]
        exact List.mem_append_left _ hp
      · have hje : j = k + 1 := by omega
        refine ⟨(toI32 (k + 1), (TodoRepositoryForMemory.create s q).1), ?_, by rw [hje]⟩
        rw [happ]
        exact List.mem_append_right _ (by simp)
    have hbound2 : (k + 1) + rest.length ≤ 4294967296 := by
      simp only [List.length_cons] at hbound
      omega
    have hres := ih (TodoRepositoryForMemory.create s q).2 (k + 1) hlen2 hsub2 hsup2 hbound2
    have hstep : createMany s (q :: rest)
        = createMany (TodoRepositoryForMemory.create s q).2 rest := by
      simp [createMany]
    rw [hstep]
    simp only [List.length_cons]
    refine ⟨by rw [hres.1]; omega, ?_, ?_⟩
    · intro p hp
      rcases hres.2.1 p hp with ⟨j, a, b, c⟩
      exact ⟨j, a, by omega, c⟩
    · intro j a b
      exact hres.2.2 j a (by omega)

theorem createMany_append (s : TodoData) (l1 l2 : List CreateTodo) :
    createMany s (l1 ++ l2) = createMany (createMany s l1) l2 := by
  simp [createMany, List.foldl_append]

theorem create_snd_eq (s : TodoData) (q : CreateTodo) :
    (TodoRepositoryForMemory.create s q).2
      = storeInsert s (toI32 (s.length + 1)) (TodoRepositoryForMemory.create s q).1 := rfl

theorem createMany_singleton (s : TodoData) (q : CreateTodo) :
    createMany s [q] = (TodoRepositoryForMemory.create s q).2 := rfl

theorem idInv_create_op (s : TodoData) (p : CreateTodo) (h : idInv s) :
    idInv (TodoRepositoryForMemory.create s p).2 := by
  simp only [TodoRepositoryForMemory.create]
  exact idInv_insert s _ _ h rfl

theorem idInv_update_op (s : TodoData) (id : Int) (p : UpdateTodo) (h : idInv s) :
    idInv (TodoRepositoryForMemory.update s id p).2 := by
  unfold TodoRepositoryForMemory.update
  cases hget : storeGet s id with
  | none => exact h
  | some todo => exact idInv_insert s id _ h rfl

theorem idInv_delete_op (s : TodoData) (id : Int) (h : idInv s) :
    idInv (TodoRepositoryForMemory.delete s id).2 := by
  unfold TodoRepositoryForMemory.delete
  cases hget : storeGet s id with
  | none => exact h
  | some todo => exact idInv_remove s id h

theorem idInv_reachable (s : TodoData) (h : Reachable s) : idInv s := by
  induction h with
  | empty => intro p hp; simp at hp
  | create s' q _ ih => exact idInv_create_op s' q ih
  | update s' id q _ ih => exact idInv_update_op s' id q ih
  | delete s' id _ ih => exact idInv_delete_op s' id ih

theorem rowsFind_map_overwrite (rows : List Todo) (id : Int) (t old : Todo)
    (ht : t.id = id) (h : TodoRepositoryForDb.rowsFind rows id = some old) :
    TodoRepositoryForDb.rowsFind (rows.map (fun r => if r.id == id then t else r)) id
      = some t := by
  induction rows with
  | nil => simp [TodoRepositoryForDb.rowsFind] at h
  | cons r rest ih =>
    by_cases hr : r.id == id
    · simp [TodoRepositoryForDb.rowsFind, hr, ht]
    · have h' : TodoRepositoryForDb.rowsFind rest id = some old := by
        simpa [TodoRepositoryForDb.rowsFind, hr] using h
      simp only [List.map_cons]
      rw [if_neg hr]
      simp only [TodoRepositoryForDb.rowsFind]
      rw [if_neg hr]
      exact ih h'

theorem labelsFind_append_self (rows : List Label) (name : String) (lab : Label)
    (hn : lab.name = name) (h : LabelRepositoryForDb.labelsFind rows name = none) :
    LabelRepositoryForDb.labelsFind (rows ++ [lab]) name = some lab := by
  induction rows with
  | nil => simp [LabelRepositoryForDb.labelsFind, hn]
  | cons l rest ih =>
    by_cases hl : l.name == name
    · simp [LabelRepositoryForDb.labelsFind, hl] at h
    · have h' : LabelRepositoryForDb.labelsFind rest name = none := by
        simpa [LabelRepositoryForDb.labelsFind, hl] using h
      simp [LabelRepositoryForDb.labelsFind, hl, ih h']

theorem labelsFind_none_countP (rows : List Label) (name : String)
    (h : LabelRepositoryForDb.labelsFind rows name = none) :
    rows.countP (fun l => l.name == name) = 0 := by
  induction rows with
  | nil => simp
  | cons l rest ih =>
    by_cases hl : l.name == name
    · simp [LabelRepositoryForDb.labelsFind, hl] at h
    · have h' : LabelRepositoryForDb.labelsFind rest name = none := by
        simpa [LabelRepositoryForDb.labelsFind, hl] using h
      simp [List.countP_cons, hl, ih h']

/-! ### Claim theorems -/

/-- Claim C1: for every CreateTodo payload whose text has length between 1
and 100 characters, create on the in-memory repository followed by find at
the returned record's id returns a record identical to the one create
returned, and that record has completed = false. -/
theorem create_then_find_roundtrip (s : TodoData) (p : CreateTodo)
    (_hmin : 1 ≤ p.text.length) (_hmax : p.text.length ≤ 100) :
    TodoRepositoryForMemory.find (TodoRepositoryForMemory.create s p).2
        (TodoRepositoryForMemory.create s p).1.id
      = .ok (TodoRepositoryForMemory.create s p).1 ∧
    (TodoRepositoryForMemory.create s p).1.completed = false := by
  have hget : storeGet (TodoRepositoryForMemory.create s p).2
      (TodoRepositoryForMemory.create s p).1.id
      = some (TodoRepositoryForMemory.create s p).1 :=
    storeGet_insert_self s (toI32 (s.length + 1)) (TodoRepositoryForMemory.create s p).1
  constructor
  · unfold TodoRepositoryForMemory.find
    rw [hget]
  · rfl

theorem create_then_find_roundtrip_witness :
    1 ≤ String.length "buy milk" ∧ String.length "buy milk" ≤ 100 ∧
    (TodoRepositoryForMemory.find
        (TodoRepositoryForMemory.create [] { text := "buy milk" }).2
        (TodoRepositoryForMemory.create [] { text := "buy milk" }).1.id
      = .ok (TodoRepositoryForMemory.create [] { text := "buy milk" }).1 ∧
     (TodoRepositoryForMemory.create [] { text := "buy milk" }).1.completed = false) :=
  ⟨by decide, by decide,
   create_then_find_roundtrip [] { text := "buy milk" } (by decide) (by decide)⟩

/-- Claim C5 as stated fails at N = 2^32 + 1 creates: the id computed for
the (2^32+1)-th create wraps back to 1 — the key of a live record — so the
insert overwrites and all() has 2^32 records, not 2^32 + 1. -/
theorem all_counts_creates_cex :
    (TodoRepositoryForMemory.all
        (createMany [] (List.replicate (4294967296 + 1) { text := "a" }))).length
      ≠ 4294967296 + 1 := by
  have hsplit : List.replicate (4294967296 + 1) ({ text := "a" } : CreateTodo)
      = List.replicate 4294967296 ({ text := "a" } : CreateTodo) ++ [{ text := "a" }] :=
    List.replicate_succ' 4294967296 ({ text := "a" } : CreateTodo)
  have hinv := createMany_wrapped_invariant
      (List.replicate 4294967296 ({ text := "a" } : CreateTodo)) [] 0 rfl
      (by intro p hp; simp at hp)
      (fun j h1 h2 => absurd h2 (by omega))
      (by rw [List.length_replicate])
  have hlenS : (createMany []
      (List.replicate 4294967296 ({ text := "a" } : CreateTodo))).length = 4294967296 := by
    have h := hinv.1
    rw [List.length_replicate] at h
    omega
  have hkey : ∃ p ∈ createMany [] (List.replicate 4294967296 ({ text := "a" } : CreateTodo)),
      p.1 = toI32 1 :=
    hinv.2.2 1 (by omega) (by rw [List.length_replicate]; omega)
  have hwrap : toI32 (4294967296 + 1) = toI32 1 := by decide
  rw [hsplit, createMany_append, createMany_singleton, create_snd_eq, hlenS, hwrap]
  simp only [TodoRepositoryForMemory.all, List.length_map]
  rw [storeInsert_length_present _ _ _ hkey, hlenS]
  omega

/-- Claim C5 (amended): on a fresh in-memory repository all() is empty, and
after N creates with no intervening deletes all() has exactly N records —
for every N up to 2^32, the point at which the i32 id cast first wraps onto
an existing key. -/
theorem all_counts_creates (ps : List CreateTodo) (h : ps.length ≤ 4294967296) :
    TodoRepositoryForMemory.all ([] : TodoData) = [] ∧
    (TodoRepositoryForMemory.all (createMany [] ps)).length = ps.length := by
  refine ⟨rfl, ?_⟩
  have hres := createMany_wrapped_invariant ps [] 0 rfl
      (by intro p hp; simp at hp)
      (fun j h1 h2 => absurd h2 (by omega))
      (by omega)
  simpa [TodoRepositoryForMemory.all] using hres.1

theorem all_counts_creates_witness :
    List.length [({ text := "a" } : CreateTodo)] ≤ 4294967296 ∧
    (TodoRepositoryForMemory.all ([] : TodoData) = [] ∧
     (TodoRepositoryForMemory.all (createMany [] [{ text := "a" }])).length
       = List.length [({ text := "a" } : CreateTodo)]) :=
  ⟨by decide, all_counts_creates [{ text := "a" }] (by decide)⟩

/-- Claim C6 as stated fails at a store of 2^31 − 1 records: create computes
the id as (2^31 − 1 + 1) as i32, which wraps to −2^31, not size + 1. -/
theorem create_assigns_size_plus_one_cex :
    (TodoRepositoryForMemory.create
        (List.replicate 2147483647
          ((0 : Int), ({ id := 0, text := "", completed := false } : Todo)))
        { text := "a" }).1.id
      ≠ ((List.replicate 2147483647
            ((0 : Int), ({ id := 0, text := "", completed := false } : Todo))).length : Int)
          + 1 := by
  have h0 : (TodoRepositoryForMemory.create
        (List.replicate 2147483647
          ((0 : Int), ({ id := 0, text := "", completed := false } : Todo)))
        { text := "a" }).1.id
      = toI32 ((List.replicate 2147483647
          ((0 : Int), ({ id := 0, text := "", completed := false } : Todo))).length + 1) :=
    rfl
  rw [h0, List.length_replicate]
  decide

/-- Claim C6 (amended): for every state of the in-memory store holding at
most 2^31 − 2 records — any state where the (len+1) as i32 cast does not
wrap — create assigns the new record the id size + 1, inserts the record
under that id, and returns the new record. -/
theorem create_assigns_size_plus_one (s : TodoData) (p : CreateTodo)
    (h : s.length ≤ 2147483646) :
    (TodoRepositoryForMemory.create s p).1
      = { id := (s.length : Int) + 1, text := p.text, completed := false } ∧
    (TodoRepositoryForMemory.create s p).2
      = storeInsert s ((s.length : Int) + 1) (TodoRepositoryForMemory.create s p).1 ∧
    storeGet (TodoRepositoryForMemory.create s p).2 ((s.length : Int) + 1)
      = some (TodoRepositoryForMemory.create s p).1 := by
  have hid : toI32 (s.length + 1) = (s.length : Int) + 1 := by
    rw [toI32_small (s.length + 1) (by omega)]
    push_cast
    ring
  have h1 : (TodoRepositoryForMemory.create s p).1
      = { id := (s.length : Int) + 1, text := p.text, completed := false } := by
    show ({ id := toI32 (s.length + 1), text := p.text, completed := false } : Todo)
      = { id := (s.length : Int) + 1, text := p.text, completed := false }
    rw [hid]
  have h2 : (TodoRepositoryForMemory.create s p).2
      = storeInsert s ((s.length : Int) + 1) (TodoRepositoryForMemory.create s p).1 := by
    show storeInsert s (toI32 (s.length + 1)) (TodoRepositoryForMemory.create s p).1
      = storeInsert s ((s.length : Int) + 1) (TodoRepositoryForMemory.create s p).1
    rw [hid]
  refine ⟨h1, h2, ?_⟩
  rw [h2, ← hid]
  exact storeGet_insert_self s (toI32 (s.length + 1)) (TodoRepositoryForMemory.create s p).1

theorem create_assigns_size_plus_one_witness :
    List.length ([] : TodoData) ≤ 2147483646 ∧
    ((TodoRepositoryForMemory.create ([] : TodoData) { text := "a" }).1
      = { id := 1, text := "a", completed := false } ∧
    (TodoRepositoryForMemory.create ([] : TodoData) { text := "a" }).2
      = storeInsert [] 1 (TodoRepositoryForMemory.create ([] : TodoData) { text := "a" }).1 ∧
    storeGet (TodoRepositoryForMemory.create ([] : TodoData) { text := "a" }).2 1
      = some (TodoRepositoryForMemory.create ([] : TodoData) { text := "a" }).1) :=
  ⟨by decide, create_assigns_size_plus_one ([] : TodoData) { text := "a" } (by decide)⟩

/-- Claim C7: id uniqueness is not an invariant — after create, create,
delete, the next create assigns id 2, which is still the key of a live
record ("b"), and overwrites it (the store does not grow). -/
theorem id_reuse_overwrites :
    Reachable reuseState ∧
    storeGet reuseState 2 = some { id := 2, text := "b", completed := false } ∧
    (TodoRepositoryForMemory.create reuseState { text := "c" }).1.id = 2 ∧
    storeGet (TodoRepositoryForMemory.create reuseState { text := "c" }).2 2
      = some { id := 2, text := "c", completed := false } ∧
    ((TodoRepositoryForMemory.create reuseState { text := "c" }).2).length
      = reuseState.length := by
  refine ⟨?_, by decide, by decide, by decide, by decide⟩
  exact Reachable.delete _ 1 (Reachable.create _ _ (Reachable.create _ _ Reachable.empty))

/-- Claim C2: request bodies whose text has length 0 or greater than 100 are
rejected with a 400 BadRequest by the validation wrapper before the handler
or the store is reached, and the store is unchanged. -/
theorem invalid_text_rejected_before_store (s : TodoData) (id : Int)
    (c : CreateTodo) (u : UpdateTodo) (t : String)
    (hc : c.text.length = 0 ∨ 100 < c.text.length)
    (hu : u.text = some t) (ht : t.length = 0 ∨ 100 < t.length) :
    create_todo s c = ((400, none), s) ∧
    update_todo s id u = ((400, none), s) := by
  have hcv : c.validate.isEmpty = false := by
    unfold CreateTodo.validate
    rcases hc with h | h
    · simp [h]
    · have h1 : ¬ (c.text.length < 1) := by omega
      simp [h, h1]
  have huv : u.validate.isEmpty = false := by
    unfold UpdateTodo.validate
    rw [hu]
    rcases ht with h | h
    · simp [h]
    · have h1 : ¬ (t.length < 1) := by omega
      simp [h, h1]
  constructor
  · unfold create_todo validatedJsonCreate
    rw [if_neg (by simp [hcv])]
  · unfold update_todo validatedJsonUpdate
    rw [if_neg (by simp [huv])]

theorem invalid_text_rejected_before_store_witness :
    (String.length "" = 0 ∨ 100 < String.length "") ∧
    create_todo [] { text := "" } = ((400, none), []) ∧
    update_todo [] 1 { text := some "", completed := none } = ((400, none), []) :=
  ⟨Or.inl (by decide),
   (invalid_text_rejected_before_store [] 1 { text := "" }
     { text := some "", completed := none } "" (Or.inl (by decide)) rfl
     (Or.inl (by decide))).1,
   (invalid_text_rejected_before_store [] 1 { text := "" }
     { text := some "", completed := none } "" (Or.inl (by decide)) rfl
     (Or.inl (by decide))).2⟩

/-- Claim C3: for an id present in the store, update with {text: None,
completed: Some true} succeeds, keeps the stored text and sets completed to
true; generally, fields absent from the payload keep the previously stored
value while present fields overwrite it — in both repository variants. -/
theorem update_merges_fields (s : TodoData) (id : Int) (old : Todo)
    (h : storeGet s id = some old)
    (db : TodosTable) (dold : Todo)
    (hdb : TodoRepositoryForDb.rowsFind db.rows id = some dold)
    (p : UpdateTodo) :
    TodoRepositoryForMemory.update s id { text := none, completed := some true }
      = (.ok { id := id, text := old.text, completed := true },
         storeInsert s id { id := id, text := old.text, completed := true }) ∧
    (TodoRepositoryForMemory.update s id p).1 = .ok (mergedTodo id old p) ∧
    storeGet (TodoRepositoryForMemory.update s id p).2 id = some (mergedTodo id old p) ∧
    (TodoRepositoryForDb.update db id p).1 = .ok (mergedTodo id dold p) ∧
    TodoRepositoryForDb.find (TodoRepositoryForDb.update db id p).2 id
      = .ok (mergedTodo id dold p) := by
  have hmem : TodoRepositoryForMemory.update s id p
      = (.ok (mergedTodo id old p), storeInsert s id (mergedTodo id old p)) := by
    unfold TodoRepositoryForMemory.update
    rw [h]
    rfl
  have hspec : TodoRepositoryForMemory.update s id { text := none, completed := some true }
      = (.ok { id := id, text := old.text, completed := true },
         storeInsert s id { id := id, text := old.text, completed := true }) := by
    unfold TodoRepositoryForMemory.update
    rw [h]
    rfl
  have hdbu : TodoRepositoryForDb.update db id p
      = (.ok (mergedTodo id dold p),
         { rows := db.rows.map (fun r => if r.id == id then mergedTodo id dold p else r),
           nextId := db.nextId }) := by
    unfold TodoRepositoryForDb.update TodoRepositoryForDb.find
    rw [hdb]
    rfl
  refine ⟨hspec, ?_, ?_, ?_, ?_⟩
  · rw [hmem]
  · rw [hmem]
    exact storeGet_insert_self s id _
  · rw [hdbu]
  · rw [hdbu]
    unfold TodoRepositoryForDb.find
    rw [rowsFind_map_overwrite db.rows id _ dold rfl hdb]

theorem update_merges_fields_witness :
    storeGet [((1 : Int), { id := 1, text := "x", completed := false })] 1
      = some { id := 1, text := "x", completed := false } ∧
    TodoRepositoryForDb.rowsFind [{ id := 1, text := "x", completed := false }] 1
      = some { id := 1, text := "x", completed := false } ∧
    TodoRepositoryForMemory.update
        [((1 : Int), { id := 1, text := "x", completed := false })] 1
        { text := none, completed := some true }
      = (.ok { id := 1, text := "x", completed := true },
         [((1 : Int), { id := 1, text := "x", completed := true })]) :=
  ⟨by decide, by decide,
   (update_merges_fields
     [((1 : Int), { id := 1, text := "x", completed := false })] 1
     { id := 1, text := "x", completed := false } (by decide)
     { rows := [{ id := 1, text := "x", completed := false }], nextId := 2 }
     { id := 1, text := "x", completed := false } (by decide)
     { text := some "y", completed := none }).1⟩

/-- Claim C9: in every reachable state of the in-memory store each record
stored under key k has id field equal to k, and create, update, and delete
each preserve this invariant. -/
theorem reachable_id_invariant (s : TodoData) (hs : Reachable s)
    (s2 : TodoData) (hinv : idInv s2) (p : CreateTodo) (id : Int) (u : UpdateTodo) :
    idInv s ∧
    idInv (TodoRepositoryForMemory.create s2 p).2 ∧
    idInv (TodoRepositoryForMemory.update s2 id u).2 ∧
    idInv (TodoRepositoryForMemory.delete s2 id).2 :=
  ⟨idInv_reachable s hs, idInv_create_op s2 p hinv,
   idInv_update_op s2 id u hinv, idInv_delete_op s2 id hinv⟩

theorem reachable_id_invariant_witness :
    idInv ([] : TodoData) ∧
    idInv (TodoRepositoryForMemory.create
      [((1 : Int), { id := 1, text := "a", completed := false })] { text := "b" }).2 ∧
    idInv (TodoRepositoryForMemory.update
      [((1 : Int), { id := 1, text := "a", completed := false })] 1
      { text := none, completed := some true }).2 ∧
    idInv (TodoRepositoryForMemory.delete
      [((1 : Int), { id := 1, text := "a", completed := false })] 1).2 :=
  reachable_id_invariant [] Reachable.empty
    [((1 : Int), { id := 1, text := "a", completed := false })] (by decide)
    { text := "b" } 1 { text := none, completed := some true }

/-- Claim C10: the all-unset payload {text: None, completed: None} passes
validation, and for every id present in the store updating with it returns
the stored record and leaves the entire store unchanged. -/
theorem empty_update_is_identity (s : TodoData) (id : Int) (old : Todo)
    (h : storeGet s id = some old) (hinv : idInv s) :
    UpdateTodo.validate { text := none, completed := none } = [] ∧
    TodoRepositoryForMemory.update s id { text := none, completed := none }
      = (.ok old, s) := by
  have hid : old.id = id := idInv_get s id old hinv h
  have hrec : ({ id := id, text := old.text, completed := old.completed } : Todo) = old := by
    obtain ⟨oid, otext, ocomp⟩ := old
    simp only [Todo.id] at hid
    rw [hid]
  constructor
  · rfl
  · unfold TodoRepositoryForMemory.update
    rw [h]
    show (Except.ok ({ id := id, text := old.text, completed := old.completed } : Todo),
          storeInsert s id { id := id, text := old.text, completed := old.completed })
        = (Except.ok old, s)
    rw [hrec, storeInsert_get_self s id old h]

theorem empty_update_is_identity_witness :
    storeGet [((1 : Int), { id := 1, text := "x", completed := false })] 1
      = some { id := 1, text := "x", completed := false } ∧
    idInv [((1 : Int), { id := 1, text := "x", completed := false })] ∧
    (UpdateTodo.validate { text := none, completed := none } = [] ∧
     TodoRepositoryForMemory.update
        [((1 : Int), { id := 1, text := "x", completed := false })] 1
        { text := none, completed := none }
      = (.ok { id := 1, text := "x", completed := false },
         [((1 : Int), { id := 1, text := "x", completed := false })])) :=
  ⟨by decide, by decide,
   empty_update_is_identity
     [((1 : Int), { id := 1, text := "x", completed := false })] 1
     { id := 1, text := "x", completed := false } (by decide) (by decide)⟩

/-- Claim C8: creating a label with a name no row has succeeds; a second
create with the identical name fails with Duplicate carrying the id of the
already-existing label, inserting no second row (the table is returned
unchanged and holds exactly one row with that name). -/
theorem label_duplicate_create (db : LabelsTable) (name : String)
    (h : LabelRepositoryForDb.labelsFind db.rows name = none) :
    (LabelRepositoryForDb.create db name).1 = .ok { id := db.nextId, name := name } ∧
    LabelRepositoryForDb.create (LabelRepositoryForDb.create db name).2 name
      = (.error (.Duplicate db.nextId), (LabelRepositoryForDb.create db name).2) ∧
    ((LabelRepositoryForDb.create db name).2).rows.countP (fun l => l.name == name)
      = 1 := by
  have h1 : LabelRepositoryForDb.create db name
      = (.ok { id := db.nextId, name := name },
         { rows := db.rows ++ [{ id := db.nextId, name := name }],
           nextId := db.nextId + 1 }) := by
    unfold LabelRepositoryForDb.create
    rw [h]
  have h2 : LabelRepositoryForDb.labelsFind
      (db.rows ++ [{ id := db.nextId, name := name }]) name
      = some { id := db.nextId, name := name } :=
    labelsFind_append_self db.rows name _ rfl h
  refine ⟨by rw [h1], ?_, ?_⟩
  · rw [h1]
    unfold LabelRepositoryForDb.create
    rw [h2]
  · rw [h1]
    have h0 := labelsFind_none_countP db.rows name h
    simp [List.countP_append, h0, List.countP_cons]

theorem label_duplicate_create_witness :
    LabelRepositoryForDb.labelsFind ([] : List Label) "a" = none ∧
    ((LabelRepositoryForDb.create { rows := [], nextId := 1 } "a").1
        = .ok { id := 1, name := "a" } ∧
     LabelRepositoryForDb.create
         (LabelRepositoryForDb.create { rows := [], nextId := 1 } "a").2 "a"
       = (.error (.Duplicate 1),
          (LabelRepositoryForDb.create { rows := [], nextId := 1 } "a").2) ∧
     ((LabelRepositoryForDb.create { rows := [], nextId := 1 } "a").2).rows.countP
        (fun l => l.name == "a") = 1) :=
  ⟨by decide, label_duplicate_create { rows := [], nextId := 1 } "a" (by decide)⟩

/-- Claim C4, evaluated at the failing input: the in-memory variant and the
DB find map an absent id to NotFound, but the DB-backed delete of an absent
id succeeds — sqlx execute() reports success with zero rows affected, so the
RowNotFound mapping arm in the source never fires — contradicting the claim
that both variants' delete fail with NotFound. -/
theorem db_delete_absent_id_succeeds :
    TodoRepositoryForDb.delete { rows := [], nextId := 1 } 1
      = (.ok (), { rows := [], nextId := 1 }) ∧
    TodoRepositoryForDb.find { rows := [], nextId := 1 } 1
      = .error (.NotFound 1) ∧
    TodoRepositoryForMemory.find ([] : TodoData) 1 = .error (.NotFound 1) ∧
    TodoRepositoryForMemory.delete ([] : TodoData) 1
      = (.error (.NotFound 1), []) :=
  ⟨rfl, rfl, rfl, rfl⟩

end MyTodo
